import Mathlib

/-!
Shallow embedding of the OTTO audio-core buffer pool
(`src/core/audio/processor.hpp`): `AudioBufferHandle`, `AudioBufferPool`
and `ProcessData`.

Modelling conventions:
* The pool is the single mutable state; every C++ member function that
  mutates the pool (through the `int&` count cell held by a handle) is a
  Lean function that takes and returns an `AudioBufferPool`.
* A handle's `float* _data` is modelled as an offset (`Option Int`) into
  the pool's flat sample storage; `nullptr` is `none`.
* A handle's `int* _reference_count` is modelled as the index
  (`Option Nat`) of the slot's count cell inside `reference_counts`;
  `nullptr` is `none`.
* Samples (C++ `float`) are modelled as `Rat`: the core never computes on
  samples, it only stores the literal 0 and reads values back, so no
  floating-point rounding is involved.
* `std::terminate()` in `allocate` is modelled by returning `none`
  (the function does not produce a handle).
-/

namespace otto.core.audio

/-- One decoded MIDI event (`midi::AnyMidiEvent`): the core treats events
as opaque values tagged with an in-window sample offset. -/
structure AnyMidiEvent where
  offset : Int
  payload : Nat
deriving DecidableEq, Repr

/-- `midi::shared_vector`: a shared (reference-semantics) ordered sequence.
The `ref` field is the identity of the shared storage; copying the
structure copies the reference, not the contents. -/
structure shared_vector (α : Type) where
  ref : Nat
  contents : List α
deriving DecidableEq, Repr

/-- `AudioBufferHandle`: a non-owning (data pointer, length, pointer to the
slot's live-count). -/
structure AudioBufferHandle where
  _data : Option Int
  _length : Nat
  _reference_count : Option Nat
deriving DecidableEq, Repr

/-- `AudioBufferPool`: fixed-capacity pool of `number_of_buffers` slots of
`buffer_size` samples each, one live-count per slot, flat backing storage. -/
structure AudioBufferPool where
  buffer_size : Nat
  reference_counts : List Int
  _avaliable_buffers : Nat
  data : List Rat
  _max_val : Nat
deriving DecidableEq, Repr

namespace AudioBufferPool

/-- `AudioBufferPool::number_of_buffers = 8`. -/
def number_of_buffers : Nat := 8

/-- Increment the count cell at index `rc`
(the C++ `(*_reference_count)++`). -/
def incrCount (p : AudioBufferPool) (rc : Nat) : AudioBufferPool :=
  { p with reference_counts :=
      p.reference_counts.set rc (p.reference_counts.getD rc 0 + 1) }

/-- Decrement the count cell at index `rc`
(the C++ `(*_reference_count)--`). -/
def decrCount (p : AudioBufferPool) (rc : Nat) : AudioBufferPool :=
  { p with reference_counts :=
      p.reference_counts.set rc (p.reference_counts.getD rc 0 - 1) }

end AudioBufferPool

/-- `std::vector<int>::resize(n, 0)`: truncate to `n` elements, or append
zero-initialized elements up to `n`; existing elements are untouched. -/
def resizeFill (l : List Int) (n : Nat) : List Int :=
  l.take n ++ List.replicate (n - l.length) 0

namespace AudioBufferHandle

/-- The handle constructor
`AudioBufferHandle(float* data, std::size_t length, int& reference_count)`:
stores the three fields and increments the referenced count. -/
def ctor (data : Int) (length : Nat) (rc : Nat) (p : AudioBufferPool) :
    AudioBufferHandle × AudioBufferPool :=
  (⟨some data, length, some rc⟩, p.incrCount rc)

/-- The destructor `~AudioBufferHandle`:
`if (_reference_count) (*_reference_count)--`. -/
def destroy (h : AudioBufferHandle) (p : AudioBufferPool) : AudioBufferPool :=
  match h._reference_count with
  | some rc => p.decrCount rc
  | none => p

/-- The move constructor: the new handle takes over all three fields and the
source's `_data` and `_reference_count` are nulled; no count is touched.
Returns (new handle, moved-from source). -/
def moveCtor (h : AudioBufferHandle) :
    AudioBufferHandle × AudioBufferHandle :=
  (⟨h._data, h._length, h._reference_count⟩, ⟨none, h._length, none⟩)

/-- The copy constructor: copies all three fields, then
`(*_reference_count)++`.  Copying an inert handle would dereference null in
C++; that branch is left as the unchanged pool with a null count. -/
def copyCtor (h : AudioBufferHandle) (p : AudioBufferPool) :
    AudioBufferHandle × AudioBufferPool :=
  match h._reference_count with
  | some rc => (⟨h._data, h._length, some rc⟩, p.incrCount rc)
  | none => (⟨h._data, h._length, none⟩, p)

/-- Move assignment `operator=(AudioBufferHandle&&)`: overwrites the three
fields from `rhs`, nulls `rhs`, returns (new target, moved-from rhs).
The previous target's count cell is NOT decremented (the old fields are
simply overwritten: source lines 74-82). -/
def assignMove (_target rhs : AudioBufferHandle)
    (p : AudioBufferPool) :
    AudioBufferHandle × AudioBufferHandle × AudioBufferPool :=
  (⟨rhs._data, rhs._length, rhs._reference_count⟩,
   ⟨none, rhs._length, none⟩, p)

/-- Copy assignment `operator=(const AudioBufferHandle&)`: overwrites the
three fields from `rhs`, then `(*_reference_count)++` on the NEW cell.
The previous target's count cell is NOT decremented (source lines 84-91). -/
def assignCopy (_target rhs : AudioBufferHandle)
    (p : AudioBufferPool) : AudioBufferHandle × AudioBufferPool :=
  match rhs._reference_count with
  | some rc => (⟨rhs._data, rhs._length, some rc⟩, p.incrCount rc)
  | none => (⟨rhs._data, rhs._length, none⟩, p)

/-- `reference_count()`: reads the referenced count cell. -/
def reference_count (h : AudioBufferHandle) (p : AudioBufferPool) : Int :=
  match h._reference_count with
  | some rc => p.reference_counts.getD rc 0
  | none => 0

/-- `release()`: decrements the count, then nulls `_reference_count`
and `_data`.  Returns (released handle, pool). -/
def release (h : AudioBufferHandle) (p : AudioBufferPool) :
    AudioBufferHandle × AudioBufferPool :=
  match h._reference_count with
  | some rc => (⟨none, h._length, none⟩, p.decrCount rc)
  | none => (⟨none, h._length, none⟩, p)

/-- `operator[]` (read): sample at `_data + i`. -/
def read (h : AudioBufferHandle) (p : AudioBufferPool) (i : Nat) : Rat :=
  match h._data with
  | some d => p.data.getD (d + (i : Int)).toNat 0
  | none => 0

/-- `clear()`: `std::fill(begin(), end(), 0)` — zero-fills the
`_length` samples starting at `_data`. -/
def clear (h : AudioBufferHandle) (p : AudioBufferPool) : AudioBufferPool :=
  match h._data with
  | some d =>
    { p with data := p.data.mapIdx fun i x =>
        if d ≤ (i : Int) ∧ (i : Int) < d + (h._length : Int) then 0 else x }
  | none => p

/-- `slice(int idx, int length = -1)`:
`length = length < 0 ? _length - idx : length;` then constructs a handle
over `_data + idx` with `std::size_t(length)` samples, sharing the same
count cell (the constructor increments it). -/
def slice (h : AudioBufferHandle) (idx length : Int) (p : AudioBufferPool) :
    AudioBufferHandle × AudioBufferPool :=
  let len : Int := if length < 0 then (h._length : Int) - idx else length
  match h._data, h._reference_count with
  | some d, some rc => ctor (d + idx) len.toNat rc p
  | _, _ => (⟨none, len.toNat, none⟩, p)

end AudioBufferHandle

namespace AudioBufferPool

/-- `reserve(n)`: fresh zero-initialized storage of `n * buffer_size`
floats (`std::make_unique<float[]>` value-initializes), records the slot
count, and `reference_counts.resize(n, 0)`. -/
def reserve (p : AudioBufferPool) (n : Nat) : AudioBufferPool :=
  { p with
    data := List.replicate (n * p.buffer_size) 0
    _avaliable_buffers := n
    reference_counts := resizeFill p.reference_counts n }

/-- The constructor `AudioBufferPool(std::size_t buffer_size)`: stores the
size and reserves `number_of_buffers` slots.  `_max_val` is
`std::size_t(-1)`. -/
def init (buffer_size : Nat) : AudioBufferPool :=
  reserve ⟨buffer_size, [], 0, [], 2 ^ 64 - 1⟩ number_of_buffers

/-- `allocate()`: scans `reference_counts` for the first index with count
`< 1`; on success updates the high-water mark, resets the count to 0 and
mints a handle over slot `i` (the handle constructor brings the count to
1).  When no slot qualifies the C++ calls `std::terminate()`: modelled as
`none` (no handle is returned). -/
def allocate (p : AudioBufferPool) :
    Option (AudioBufferHandle × AudioBufferPool) :=
  match p.reference_counts.findIdx? (· < 1) with
  | some i =>
    let p1 : AudioBufferPool :=
      { p with
        _max_val := if i > p._max_val then i else p._max_val
        reference_counts := p.reference_counts.set i 0 }
    some (AudioBufferHandle.ctor ((i * p.buffer_size : Nat) : Int)
            p.buffer_size i p1)
  | none => none

/-- `allocate_clear()`: allocate, then `res.clear()`, then return `res`. -/
def allocate_clear (p : AudioBufferPool) :
    Option (AudioBufferHandle × AudioBufferPool) :=
  match p.allocate with
  | some (res, p1) => some (res, res.clear p1)
  | none => none

/-- `set_buffer_size(bs)`: stores the new size and calls
`reserve(number_of_buffers)`. -/
def set_buffer_size (p : AudioBufferPool) (bs : Nat) : AudioBufferPool :=
  reserve { p with buffer_size := bs } number_of_buffers

end AudioBufferPool

/-- `ProcessData<N>`: non-owning bundle of `N` audio handles, a shared
MIDI sequence and a frame count.  The channel count is carried as the
length of `audio`. -/
structure ProcessData where
  audio : List AudioBufferHandle
  midi : shared_vector AnyMidiEvent
  nframes : Int
deriving DecidableEq, Repr

/-- Modelled from the spec: the body of `ProcessData<N>::redirect` is
declared in `processor.hpp` (lines 265-268) but defined in
`processor.inl`, which is not among the shown sources.  Per the spec,
`redirect(handles)` "produces a new packet over a *different* set of M
audio handles, while carrying forward this packet's MIDI sequence and
frame count unchanged". -/
def ProcessData.redirect (p : ProcessData)
    (buf : List AudioBufferHandle) : ProcessData :=
  { audio := buf, midi := p.midi, nframes := p.nframes }

/-! ### Helper lemmas -/

theorem getD_set_at (l : List Int) (i : Nat) (a : Int)
    (hi : i < l.length) : (l.set i a).getD i 0 = a := by
  rw [List.getD_eq_getElem?_getD, List.getElem?_set_self hi]
  rfl

/-! ### C1: pool exhaustion is fatal, a free slot means normal return -/

/-- C1. If `allocate()` finds no slot with live-count < 1 it does not
return a handle (the C++ terminates via `std::terminate()`, modelled as
`none`); whenever at least one slot has live-count < 1, `allocate()`
returns normally. -/
theorem allocate_exhaustion (p : AudioBufferPool) :
    (p.allocate = none ↔ ∀ c ∈ p.reference_counts, 1 ≤ c) ∧
    ((∃ c ∈ p.reference_counts, c < 1) →
      ∃ hp, p.allocate = some hp) := by
  have hnone : p.allocate = none ↔
      p.reference_counts.findIdx? (· < 1) = none := by
    unfold AudioBufferPool.allocate
    cases p.reference_counts.findIdx? (· < 1) <;> simp
  constructor
  · rw [hnone, List.findIdx?_eq_none_iff]
    constructor
    · intro hall c hc
      have := hall c hc
      simp at this
      omega
    · intro hall c hc
      have := hall c hc
      simp
      omega
  · rintro ⟨c, hc, hlt⟩
    rcases hopt : p.allocate with _ | hp
    · rw [hnone, List.findIdx?_eq_none_iff] at hopt
      have := hopt c hc
      simp at this
      omega
    · exact ⟨hp, rfl⟩

/-- C1 witness: a pool with a free slot, on which `allocate` returns
normally. -/
theorem allocate_exhaustion_witness :
    (∃ c ∈ ([1, 0] : List Int), c < 1) ∧
    (∃ hp, (⟨4, [1, 0], 2, [], 0⟩ : AudioBufferPool).allocate = some hp) :=
  ⟨by decide,
   (allocate_exhaustion ⟨4, [1, 0], 2, [], 0⟩).2 (by decide)⟩

/-! ### C4: allocate returns the first free slot with count reading 1 -/

/-- C4. Whenever slot `i` is the first one whose live-count is < 1,
`allocate()` returns a handle over slot `i` (data pointer at offset
`i * buffer_size`, length `buffer_size`, count cell `i`) and
`reference_count()` on the returned handle reads exactly 1. -/
theorem allocate_returns_first_free (p : AudioBufferPool) (i : Nat)
    (hlen : i < p.reference_counts.length)
    (hfree : p.reference_counts.getD i 0 < 1)
    (hfirst : ∀ j, j < i → 1 ≤ p.reference_counts.getD j 0) :
    ∃ h p1, p.allocate = some (h, p1) ∧
      h._data = some ((i * p.buffer_size : Nat) : Int) ∧
      h._length = p.buffer_size ∧
      h._reference_count = some i ∧
      h.reference_count p1 = 1 := by
  have hfi : p.reference_counts.findIdx? (· < 1) = some i := by
    rw [List.findIdx?_eq_some_iff_findIdx_eq]
    refine ⟨hlen, (List.findIdx_eq hlen).mpr ⟨?_, ?_⟩⟩
    · rw [List.getD_eq_getElem _ _ hlen] at hfree
      simpa using hfree
    · intro j hj
      have hjlen : j < p.reference_counts.length := lt_trans hj hlen
      have := hfirst j hj
      rw [List.getD_eq_getElem _ _ hjlen] at this
      simp
      omega
  unfold AudioBufferPool.allocate
  rw [hfi]
  refine ⟨_, _, rfl, rfl, rfl, rfl, ?_⟩
  simp only [AudioBufferHandle.reference_count, AudioBufferHandle.ctor,
    AudioBufferPool.incrCount]
  have hlen1 : i < (p.reference_counts.set i 0).length := by
    rw [List.length_set]; exact hlen
  rw [getD_set_at _ _ _ hlen1, getD_set_at _ _ _ hlen]
  omega

/-- C4 witness: slot 0 holds a live share, slot 1 is free; `allocate`
returns a handle over slot 1 whose count reads 1. -/
theorem allocate_returns_first_free_witness :
    (1 < ([1, 0, 0, 0, 0, 0, 0, 0] : List Int).length ∧
     ([1, 0, 0, 0, 0, 0, 0, 0] : List Int).getD 1 0 < 1 ∧
     (∀ j, j < 1 → 1 ≤ ([1, 0, 0, 0, 0, 0, 0, 0] : List Int).getD j 0)) ∧
    (∃ h p1,
      (⟨4, [1, 0, 0, 0, 0, 0, 0, 0], 8, [], 0⟩ :
        AudioBufferPool).allocate = some (h, p1) ∧
      h._data = some ((1 * 4 : Nat) : Int) ∧
      h._length = 4 ∧
      h._reference_count = some 1 ∧
      h.reference_count p1 = 1) :=
  ⟨⟨by decide, by decide, by decide⟩,
   allocate_returns_first_free ⟨4, [1, 0, 0, 0, 0, 0, 0, 0], 8, [], 0⟩ 1
     (by decide) (by decide) (by decide)⟩

/-! ### C2: assignment fails to release the previous target's share -/

/-- C2. Evaluation of both assignment operators at a concrete failing
input.  Pool with two slots, counts `[1, 1]`; the target handle `h` holds
the share of slot 0, the source `g` references slot 1.  Copy-assigning `g`
into `h` leaves the counts at `[1, 2]`: slot 1 is incremented but slot 0's
previous share is never released (the claim requires `[0, 2]`).
Move-assigning `g` into `h` leaves the counts at `[1, 1]`: again slot 0 is
never decremented (the claim requires `[0, 1]`). -/
theorem assignment_leaks_previous_share :
    ((AudioBufferHandle.assignCopy ⟨some 0, 4, some 0⟩ ⟨some 4, 4, some 1⟩
        ⟨4, [1, 1], 2, [], 0⟩).2).reference_counts = [1, 2] ∧
    ((AudioBufferHandle.assignMove ⟨some 0, 4, some 0⟩ ⟨some 4, 4, some 1⟩
        ⟨4, [1, 1], 2, [], 0⟩).2.2).reference_counts = [1, 1] :=
  ⟨rfl, rfl⟩

/-! ### C3: set_buffer_size does not reset the live-counts -/

/-- C3 counterexample.  A pool whose slot 0 has live-count 5: after
`set_buffer_size(32)` the counts are unchanged (`resize` to the same
capacity touches no existing element), so the claim that every slot's
live-count is reset to 0 fails. -/
theorem set_buffer_size_no_reset_counterexample :
    (AudioBufferPool.set_buffer_size
        ⟨64, [5, 0, 0, 0, 0, 0, 0, 0], 8, [], 0⟩ 32).reference_counts
      = [5, 0, 0, 0, 0, 0, 0, 0] ∧
    ¬ (∀ c ∈ (AudioBufferPool.set_buffer_size
        ⟨64, [5, 0, 0, 0, 0, 0, 0, 0], 8, [], 0⟩ 32).reference_counts,
        c = 0) := by
  constructor
  · rfl
  · intro hall
    have : (5 : Int) = 0 := hall 5 (by rw [show (AudioBufferPool.set_buffer_size
        ⟨64, [5, 0, 0, 0, 0, 0, 0, 0], 8, [], 0⟩ 32).reference_counts
      = [5, 0, 0, 0, 0, 0, 0, 0] from rfl]; simp)
    omega

/-- C3 amended.  `set_buffer_size(bs)` reconfigures the slot length to
`bs` and reallocates zero-initialized backing storage, but leaves the
live-counts unchanged: on a pool already at capacity, the `resize` call
keeps every existing count value (slots that were free stay free, held
slots stay held). -/
theorem set_buffer_size_spec (p : AudioBufferPool) (bs : Nat)
    (hcap : p.reference_counts.length = AudioBufferPool.number_of_buffers) :
    (p.set_buffer_size bs).buffer_size = bs ∧
    (p.set_buffer_size bs).reference_counts = p.reference_counts ∧
    (p.set_buffer_size bs).data
      = List.replicate (AudioBufferPool.number_of_buffers * bs) 0 := by
  refine ⟨rfl, ?_, rfl⟩
  simp only [AudioBufferPool.set_buffer_size, AudioBufferPool.reserve,
    resizeFill]
  rw [List.take_of_length_le (le_of_eq hcap), hcap]
  simp

/-- C3 amended witness: a pool with a leaked count 5 on slot 0, at
capacity 8; the reconfigured pool keeps the counts verbatim. -/
theorem set_buffer_size_spec_witness :
    (([5, 0, 0, 0, 0, 0, 0, 0] : List Int).length
        = AudioBufferPool.number_of_buffers) ∧
    ((AudioBufferPool.set_buffer_size
        ⟨64, [5, 0, 0, 0, 0, 0, 0, 0], 8, [], 0⟩ 32).buffer_size = 32 ∧
     (AudioBufferPool.set_buffer_size
        ⟨64, [5, 0, 0, 0, 0, 0, 0, 0], 8, [], 0⟩ 32).reference_counts
        = [5, 0, 0, 0, 0, 0, 0, 0] ∧
     (AudioBufferPool.set_buffer_size
        ⟨64, [5, 0, 0, 0, 0, 0, 0, 0], 8, [], 0⟩ 32).data
        = List.replicate (AudioBufferPool.number_of_buffers * 32) 0) :=
  ⟨by decide,
   set_buffer_size_spec ⟨64, [5, 0, 0, 0, 0, 0, 0, 0], 8, [], 0⟩ 32
     (by decide)⟩

/-! ### C5: slice produces an offset view sharing the count cell -/

/-- C5. For a live handle `h` over cell `rc` with data offset `d`, and
`0 ≤ idx`, `0 ≤ length`, `idx + length ≤ h._length`, `slice(idx, length)`
returns a handle whose data pointer is `d + idx`, whose size is `length`,
which shares `h`'s count cell, and whose construction increments that
slot's live-count by exactly one (all other cells untouched). -/
theorem slice_spec (p : AudioBufferPool) (h : AudioBufferHandle)
    (d : Int) (rc : Nat) (idx length : Int)
    (hd : h._data = some d) (hrc : h._reference_count = some rc)
    (h0 : 0 ≤ idx) (h1 : 0 ≤ length)
    (h2 : idx + length ≤ (h._length : Int)) :
    (h.slice idx length p).1._data = some (d + idx) ∧
    ((h.slice idx length p).1._length : Int) = length ∧
    (h.slice idx length p).1._reference_count = h._reference_count ∧
    (h.slice idx length p).2.reference_counts
      = p.reference_counts.set rc (p.reference_counts.getD rc 0 + 1) := by
  simp only [AudioBufferHandle.slice, AudioBufferHandle.ctor,
    AudioBufferPool.incrCount, hd, hrc, if_neg (not_lt.mpr h1)]
  exact ⟨by simp, Int.toNat_of_nonneg h1, by simp, by simp⟩

/-- C5 witness: slicing `[2, 2+3)` out of an 8-sample handle over cell 0
of a one-slot pool with count `[1]`. -/
theorem slice_spec_witness :
    ((⟨some 0, 8, some 0⟩ : AudioBufferHandle)._data = some 0 ∧
     (⟨some 0, 8, some 0⟩ : AudioBufferHandle)._reference_count = some 0 ∧
     (0 : Int) ≤ 2 ∧ (0 : Int) ≤ 3 ∧
     (2 + 3 : Int) ≤ ((⟨some 0, 8, some 0⟩ :
        AudioBufferHandle)._length : Int)) ∧
    ((AudioBufferHandle.slice ⟨some 0, 8, some 0⟩ 2 3
        ⟨8, [1], 1, [], 0⟩).1._data = some (0 + 2) ∧
     ((AudioBufferHandle.slice ⟨some 0, 8, some 0⟩ 2 3
        ⟨8, [1], 1, [], 0⟩).1._length : Int) = 3 ∧
     (AudioBufferHandle.slice ⟨some 0, 8, some 0⟩ 2 3
        ⟨8, [1], 1, [], 0⟩).1._reference_count
        = (⟨some 0, 8, some 0⟩ : AudioBufferHandle)._reference_count ∧
     (AudioBufferHandle.slice ⟨some 0, 8, some 0⟩ 2 3
        ⟨8, [1], 1, [], 0⟩).2.reference_counts
        = ([1] : List Int).set 0 (([1] : List Int).getD 0 0 + 1)) :=
  ⟨⟨rfl, rfl, by decide, by decide, by decide⟩,
   slice_spec ⟨8, [1], 1, [], 0⟩ ⟨some 0, 8, some 0⟩ 0 0 2 3
     rfl rfl (by decide) (by decide) (by decide)⟩

/-! ### C6: copy increments and aliases; move transfers without change -/

/-- C6. Copy-constructing from a live handle `h` increments the shared
live-count by one and the copy has the same data pointer, length and count
cell as `h`; move-constructing leaves the pool untouched (no count
change), the destination takes over all of `h`'s fields, and the
moved-from source is inert: destroying it performs no decrement. -/
theorem copy_move_ctor_spec (p : AudioBufferPool) (h : AudioBufferHandle)
    (rc : Nat) (hrc : h._reference_count = some rc) :
    ((h.copyCtor p).1._data = h._data ∧
     (h.copyCtor p).1._length = h._length ∧
     (h.copyCtor p).1._reference_count = h._reference_count ∧
     (h.copyCtor p).2.reference_counts
       = p.reference_counts.set rc (p.reference_counts.getD rc 0 + 1)) ∧
    (h.moveCtor.1._data = h._data ∧
     h.moveCtor.1._length = h._length ∧
     h.moveCtor.1._reference_count = h._reference_count ∧
     h.moveCtor.2._data = none ∧
     h.moveCtor.2._reference_count = none ∧
     h.moveCtor.2.destroy p = p) := by
  refine ⟨?_, rfl, rfl, rfl, rfl, rfl, rfl⟩
  simp only [AudioBufferHandle.copyCtor, AudioBufferPool.incrCount, hrc]
  simp

/-- C6 witness: copying and moving a live handle over cell 0 of a
one-slot pool with count `[1]`. -/
theorem copy_move_ctor_spec_witness :
    ((⟨some 0, 4, some 0⟩ : AudioBufferHandle)._reference_count
        = some 0) ∧
    (((AudioBufferHandle.copyCtor ⟨some 0, 4, some 0⟩
        ⟨4, [1], 1, [], 0⟩).1._data = some 0 ∧
      (AudioBufferHandle.copyCtor ⟨some 0, 4, some 0⟩
        ⟨4, [1], 1, [], 0⟩).1._length = 4 ∧
      (AudioBufferHandle.copyCtor ⟨some 0, 4, some 0⟩
        ⟨4, [1], 1, [], 0⟩).1._reference_count = some 0 ∧
      (AudioBufferHandle.copyCtor ⟨some 0, 4, some 0⟩
        ⟨4, [1], 1, [], 0⟩).2.reference_counts
        = ([1] : List Int).set 0 (([1] : List Int).getD 0 0 + 1)) ∧
     ((AudioBufferHandle.moveCtor ⟨some 0, 4, some 0⟩).1._data = some 0 ∧
      (AudioBufferHandle.moveCtor ⟨some 0, 4, some 0⟩).1._length = 4 ∧
      (AudioBufferHandle.moveCtor
        ⟨some 0, 4, some 0⟩).1._reference_count = some 0 ∧
      (AudioBufferHandle.moveCtor ⟨some 0, 4, some 0⟩).2._data = none ∧
      (AudioBufferHandle.moveCtor
        ⟨some 0, 4, some 0⟩).2._reference_count = none ∧
      (AudioBufferHandle.moveCtor ⟨some 0, 4, some 0⟩).2.destroy
        ⟨4, [1], 1, [], 0⟩ = ⟨4, [1], 1, [], 0⟩)) := by
  have base := copy_move_ctor_spec ⟨4, [1], 1, [], 0⟩ ⟨some 0, 4, some 0⟩
    0 rfl
  exact ⟨rfl, base⟩

/-! ### C7: release decrements once; later destruction adds nothing -/

/-- C7. For a live handle `h` over cell `rc`, `release()` decrements that
slot's live-count by exactly one (all other cells untouched) and the
subsequent destruction of the released handle performs no further
decrement: the pool state is unchanged by destroying it. -/
theorem release_then_destroy_spec (p : AudioBufferPool)
    (h : AudioBufferHandle) (rc : Nat)
    (hrc : h._reference_count = some rc) :
    (h.release p).2.reference_counts
      = p.reference_counts.set rc (p.reference_counts.getD rc 0 - 1) ∧
    ((h.release p).1).destroy ((h.release p).2) = (h.release p).2 := by
  simp only [AudioBufferHandle.release, AudioBufferPool.decrCount, hrc,
    AudioBufferHandle.destroy]
  simp

/-- C7 witness: releasing a live handle over cell 0 of a one-slot pool
with count `[2]`, then destroying it. -/
theorem release_then_destroy_spec_witness :
    ((⟨some 0, 4, some 0⟩ : AudioBufferHandle)._reference_count
        = some 0) ∧
    ((AudioBufferHandle.release ⟨some 0, 4, some 0⟩
        ⟨4, [2], 1, [], 0⟩).2.reference_counts
        = ([2] : List Int).set 0 (([2] : List Int).getD 0 0 - 1) ∧
     ((AudioBufferHandle.release ⟨some 0, 4, some 0⟩
        ⟨4, [2], 1, [], 0⟩).1).destroy
        ((AudioBufferHandle.release ⟨some 0, 4, some 0⟩
          ⟨4, [2], 1, [], 0⟩).2)
        = (AudioBufferHandle.release ⟨some 0, 4, some 0⟩
            ⟨4, [2], 1, [], 0⟩).2) :=
  ⟨rfl,
   release_then_destroy_spec ⟨4, [2], 1, [], 0⟩ ⟨some 0, 4, some 0⟩ 0 rfl⟩

/-! ### C8: allocate_clear returns an all-zero view -/

/-- Helper: reading back any position inside a zero-filled range yields
zero. -/
theorem mapIdx_fill_getD_zero (l : List Rat) (D : Int) (len : Nat)
    (k : Nat) (hcond : D ≤ (k : Int) ∧ (k : Int) < D + (len : Int)) :
    (l.mapIdx fun j x =>
        if D ≤ (j : Int) ∧ (j : Int) < D + (len : Int) then 0
        else x).getD k 0 = 0 := by
  rw [List.getD_eq_getElem?_getD, List.getElem?_mapIdx]
  cases l[k]? with
  | none => simp
  | some x => simp [if_pos hcond]

/-- Helper: the exact success value of `allocate` once the scan result is
known. -/
theorem allocate_eq (p : AudioBufferPool) (i : Nat)
    (hfi : p.reference_counts.findIdx? (· < 1) = some i) :
    p.allocate = some
      (⟨some ((i * p.buffer_size : Nat) : Int), p.buffer_size, some i⟩,
       { p with
         _max_val := if i > p._max_val then i else p._max_val
         reference_counts := (p.reference_counts.set i 0).set i
           ((p.reference_counts.set i 0).getD i 0 + 1) }) := by
  unfold AudioBufferPool.allocate AudioBufferHandle.ctor
    AudioBufferPool.incrCount
  rw [hfi]

/-- C8. Whenever at least one slot is free, `allocate_clear()` returns a
handle whose every sample in the returned view reads as zero. -/
theorem allocate_clear_zeros (p : AudioBufferPool)
    (hfree : ∃ c ∈ p.reference_counts, c < 1) :
    ∃ h p1, p.allocate_clear = some (h, p1) ∧
      ∀ i, i < h._length → h.read p1 i = 0 := by
  obtain ⟨c, hc, hlt⟩ := hfree
  have hfi : p.reference_counts.findIdx? (· < 1)
      = some (p.reference_counts.findIdx (· < 1)) :=
    List.findIdx?_eq_some_of_exists ⟨c, hc, by simpa using hlt⟩
  have halloc := allocate_eq p _ hfi
  unfold AudioBufferPool.allocate_clear
  rw [halloc]
  refine ⟨_, _, rfl, ?_⟩
  intro i hi
  have hi1 : i < p.buffer_size := hi
  simp only [AudioBufferHandle.read, AudioBufferHandle.clear]
  apply mapIdx_fill_getD_zero
  constructor <;> omega

/-- C8 witness: a freshly constructed pool of 8 free slots has a free
slot, and `allocate_clear` returns an all-zero view. -/
theorem allocate_clear_zeros_witness :
    (∃ c ∈ (AudioBufferPool.init 4).reference_counts, c < 1) ∧
    (∃ h p1, (AudioBufferPool.init 4).allocate_clear = some (h, p1) ∧
      ∀ i, i < h._length → h.read p1 i = 0) :=
  ⟨by decide, allocate_clear_zeros (AudioBufferPool.init 4) (by decide)⟩

/-! ### C9: redirect preserves nframes and the shared MIDI sequence -/

/-- C9. `redirect(hs)` on a packet returns a packet whose `nframes`
equals the original's, whose MIDI sequence is the very same shared
sequence (same shared reference, hence identical ordered contents, not
copied), and whose audio channel set is exactly `hs`. -/
theorem redirect_preserves_midi_nframes (p : ProcessData)
    (buf : List AudioBufferHandle) :
    (p.redirect buf).nframes = p.nframes ∧
    (p.redirect buf).midi = p.midi ∧
    (p.redirect buf).midi.ref = p.midi.ref ∧
    (p.redirect buf).midi.contents = p.midi.contents ∧
    (p.redirect buf).audio = buf :=
  ⟨rfl, rfl, rfl, rfl, rfl⟩

/-! ### C10: any negative length means the remainder -/

/-- C10. For a live handle of size `L` and `idx` in `[0, L)`, any
negative `length` argument (not only the default -1) makes `slice`
behave as if the remainder had been passed: the returned view has size
`L - idx`. -/
theorem slice_negative_length_remainder (p : AudioBufferPool)
    (h : AudioBufferHandle) (d : Int) (rc : Nat) (idx length : Int)
    (hd : h._data = some d) (hrc : h._reference_count = some rc)
    (h0 : 0 ≤ idx) (h1 : idx < (h._length : Int)) (hneg : length < 0) :
    ((h.slice idx length p).1._length : Int) = (h._length : Int) - idx := by
  simp only [AudioBufferHandle.slice, AudioBufferHandle.ctor, hd, hrc,
    if_pos hneg]
  exact Int.toNat_of_nonneg (by omega)

/-- C10 witness: slicing an 8-sample handle at `idx = 3` with
`length = -7` yields a 5-sample view. -/
theorem slice_negative_length_remainder_witness :
    ((⟨some 0, 8, some 0⟩ : AudioBufferHandle)._data = some 0 ∧
     (⟨some 0, 8, some 0⟩ : AudioBufferHandle)._reference_count = some 0 ∧
     (0 : Int) ≤ 3 ∧
     (3 : Int) < ((⟨some 0, 8, some 0⟩ :
        AudioBufferHandle)._length : Int) ∧
     (-7 : Int) < 0) ∧
    ((AudioBufferHandle.slice ⟨some 0, 8, some 0⟩ 3 (-7)
        ⟨8, [1], 1, [], 0⟩).1._length : Int)
      = (((⟨some 0, 8, some 0⟩ : AudioBufferHandle)._length : Int) - 3) :=
  ⟨⟨rfl, rfl, by decide, by decide, by decide⟩,
   slice_negative_length_remainder ⟨8, [1], 1, [], 0⟩ ⟨some 0, 8, some 0⟩
     0 0 3 (-7) rfl rfl (by decide) (by decide) (by decide)⟩

end otto.core.audio
